import Mathlib

/-!
Shallow embedding of the dloom core: the hierarchical configuration
resolver (internal Config / GetEffectiveConfig), the version-constraint
comparator (internal/conditions), and the link/unlink filesystem
reconciliation engines (internal/link.go, internal/unlink.go).

Paths are modelled as component lists in walk order (head = first
component); the empty list plays the role of the empty / "." path, so
filepath.Join is list append, filepath.Dir is dropLast and filepath.Base
is the last component.  Go maps are modelled as association lists; the
regexp.MatchString oracle is an explicit boolean-valued parameter.
-/

namespace Dloom

/-- A filesystem path as a list of components, outermost first. -/
abbrev Path := List String

/-- filepath.Base: last component, "." for the empty path. -/
def baseName (p : Path) : String := (p.getLast?).getD "."

/-- filepath.Dir: all but the last component. -/
def dirName (p : Path) : Path := p.dropLast

/-- ExpandPath (io_utils.go): a leading tilde component is replaced by the
home directory; other paths are returned unchanged (absolute inputs). -/
def ExpandPath (home : Path) : Path → Path
  | "~" :: rest => home ++ rest
  | p => p

/-- strings.HasPrefix on the underlying characters. -/
def strStartsWith (s pre : String) : Bool := pre.toList.isPrefixOf s.toList

/-- Drop the first n characters of a string. -/
def strDrop (s : String) (n : Nat) : String := ⟨s.toList.drop n⟩

/-- ConditionSet (part_003): the five predicate categories. -/
structure ConditionSet where
  os : List String
  distro : List String
  executable : List String
  executableVersion : List (String × String)
  user : List String
deriving DecidableEq, Repr

/-- FileConfig (part_003): per-file override; empty string / empty path /
none models an unset field. -/
structure FileConfig where
  targetDir : Path
  targetName : String
  backupDir : Path
  force : Option Bool
  verbose : Option Bool
  dryRun : Bool
  conditions : Option ConditionSet
deriving DecidableEq, Repr

/-- PackageConfig (part_003): per-package override with its file map. -/
structure PackageConfig where
  sourceDir : Path
  targetDir : Path
  backupDir : Path
  force : Option Bool
  verbose : Option Bool
  dryRun : Bool
  conditions : Option ConditionSet
  files : List (String × FileConfig)
deriving DecidableEq, Repr

/-- Config (part_003): the global settings plus package overrides. -/
structure Config where
  sourceDir : Path
  targetDir : Path
  backupDir : Path
  force : Bool
  verbose : Bool
  dryRun : Bool
  packages : List (String × PackageConfig)
deriving DecidableEq, Repr

/-- The effective (resolved) settings for one (package, relativePath)
pair; mirrors the FileConfig value GetEffectiveConfig builds, with the
target name held as a path. -/
structure EffectiveConfig where
  targetDir : Path
  targetName : Path
  backupDir : Path
  force : Option Bool
  verbose : Option Bool
  dryRun : Bool
  conditions : Option ConditionSet
deriving DecidableEq, Repr

/-- A regex oracle standing for regexp.MatchString collapsed to a
boolean (err == nil && matched): pattern, then full relative path. -/
abbrev RegexOracle := String → Path → Bool

/-- The regex-scan half of the file-override lookup in GetEffectiveConfig
(part_003 lines 241-254): first entry whose key starts with "regex:" and
whose stripped pattern matches the relative path. -/
def firstRegexMatch (rx : RegexOracle) (rel : Path) :
    List (String × FileConfig) → Option FileConfig
  | [] => none
  | (pat, fc) :: rest =>
    if strStartsWith pat "regex:" && rx (strDrop pat 6) rel then some fc
    else firstRegexMatch rx rel rest

/-- File-override lookup in GetEffectiveConfig (part_003 lines 232-255):
exact match on the base name first, then the regex scan. -/
def findFileConfig (rx : RegexOracle) (files : List (String × FileConfig))
    (rel : Path) : Option FileConfig :=
  match files.lookup (baseName rel) with
  | some fc => some fc
  | none => firstRegexMatch rx rel files

/-- GetEffectiveConfig (part_003 lines 193-295): seed from the globals,
overlay the package-level fields that are set, then the matched file
override's fields. -/
def Config.GetEffectiveConfig (c : Config) (rx : RegexOracle)
    (packageName : String) (relativePath : Path) : EffectiveConfig :=
  let e0 : EffectiveConfig :=
    { targetDir := c.targetDir
      targetName := relativePath
      backupDir := c.backupDir
      force := some c.force
      verbose := some c.verbose
      dryRun := c.dryRun
      conditions := none }
  match c.packages.lookup packageName with
  | none => e0
  | some pkg =>
    let e1 : EffectiveConfig :=
      { targetDir := if pkg.targetDir ≠ [] then pkg.targetDir else e0.targetDir
        targetName := e0.targetName
        backupDir := if pkg.backupDir ≠ [] then pkg.backupDir else e0.backupDir
        force := if pkg.force.isSome then pkg.force else e0.force
        verbose := if pkg.verbose.isSome then pkg.verbose else e0.verbose
        dryRun := if pkg.dryRun then pkg.dryRun else e0.dryRun
        conditions := pkg.conditions }
    match findFileConfig rx pkg.files relativePath with
    | none => e1
    | some fc =>
      { targetDir := if fc.targetDir ≠ [] then fc.targetDir else e1.targetDir
        targetName :=
          if fc.targetName ≠ "" then dirName relativePath ++ [fc.targetName]
          else e1.targetName
        backupDir := if fc.backupDir ≠ [] then fc.backupDir else e1.backupDir
        force := if fc.force.isSome then fc.force else e1.force
        verbose := if fc.verbose.isSome then fc.verbose else e1.verbose
        dryRun := if fc.dryRun then fc.dryRun else e1.dryRun
        conditions := if fc.conditions.isSome then fc.conditions else e1.conditions }

/-- The resolved force pointer is never nil: it is seeded from the global
boolean and only ever replaced by a pointer already known non-nil. -/
theorem effectiveForce_isSome (c : Config) (rx : RegexOracle)
    (p : String) (r : Path) :
    ((c.GetEffectiveConfig rx p r).force).isSome = true := by
  unfold Config.GetEffectiveConfig
  cases c.packages.lookup p with
  | none => rfl
  | some pkg =>
    dsimp only
    cases h : findFileConfig rx pkg.files r with
    | none =>
      dsimp only
      by_cases hp : pkg.force.isSome <;> simp [hp]
    | some fc =>
      dsimp only
      by_cases hf : fc.force.isSome <;> by_cases hp : pkg.force.isSome <;>
        simp [hf, hp]

/-- Same for the resolved verbose pointer. -/
theorem effectiveVerbose_isSome (c : Config) (rx : RegexOracle)
    (p : String) (r : Path) :
    ((c.GetEffectiveConfig rx p r).verbose).isSome = true := by
  unfold Config.GetEffectiveConfig
  cases c.packages.lookup p with
  | none => rfl
  | some pkg =>
    dsimp only
    cases h : findFileConfig rx pkg.files r with
    | none =>
      dsimp only
      by_cases hp : pkg.verbose.isSome <;> simp [hp]
    | some fc =>
      dsimp only
      by_cases hf : fc.verbose.isSome <;> by_cases hp : pkg.verbose.isSome <;>
        simp [hf, hp]

/-- ShouldForce (part_003 lines 182-189): dereferences the resolved force
pointer; total because the pointer is provably non-nil. -/
def Config.ShouldForce (c : Config) (rx : RegexOracle)
    (packageName : String) (relativePath : Path) : Bool :=
  ((c.GetEffectiveConfig rx packageName relativePath).force).get
    (effectiveForce_isSome c rx packageName relativePath)

/-- ShouldBeVerbose (part_003 lines 163-170). -/
def Config.ShouldBeVerbose (c : Config) (rx : RegexOracle)
    (packageName : String) (relativePath : Path) : Bool :=
  ((c.GetEffectiveConfig rx packageName relativePath).verbose).get
    (effectiveVerbose_isSome c rx packageName relativePath)

/-- IsDryRun (part_003 lines 173-179). -/
def Config.IsDryRun (c : Config) (rx : RegexOracle)
    (packageName : String) (relativePath : Path) : Bool :=
  (c.GetEffectiveConfig rx packageName relativePath).dryRun

/-- GetSourcePath (part_003 lines 129-137). -/
def Config.GetSourcePath (c : Config) (home : Path)
    (packageName : String) : Path :=
  match c.packages.lookup packageName with
  | some pkg =>
    if pkg.sourceDir ≠ [] then pkg.sourceDir
    else ExpandPath home (c.sourceDir ++ [packageName])
  | none => ExpandPath home (c.sourceDir ++ [packageName])

/-- GetTargetPath (part_003 lines 140-146). -/
def Config.GetTargetPath (c : Config) (rx : RegexOracle) (home : Path)
    (packageName : String) (relativePath : Path) : Path :=
  let e := c.GetEffectiveConfig rx packageName relativePath
  ExpandPath home (e.targetDir ++ e.targetName)

/-- GetBackupPath (part_003 lines 149-160): none when the effective
backup directory is empty (backups disabled). -/
def Config.GetBackupPath (c : Config) (rx : RegexOracle) (home : Path)
    (packageName : String) (relativePath : Path) : Option Path :=
  let e := c.GetEffectiveConfig rx packageName relativePath
  if e.backupDir = [] then none
  else some (ExpandPath home (e.backupDir ++ relativePath))

/-- The white-space class used by strings.TrimSpace (ASCII part). -/
def isSpaceChar (c : Char) : Bool :=
  c = ' ' || c = '\t' || c = '\n' || c = '\x0b' || c = '\x0c' || c = '\r'

/-- strings.TrimSpace: drop white space from both ends. -/
def strTrim (s : String) : String :=
  ⟨((s.toList.dropWhile isSpaceChar).reverse.dropWhile isSpaceChar).reverse⟩

/-- The splitting loop of strings.Split on a dot separator. -/
def splitDotAux (acc : List Char) : List Char → List String
  | [] => [⟨acc.reverse⟩]
  | c :: rest =>
    if c = '.' then ⟨acc.reverse⟩ :: splitDotAux [] rest
    else splitDotAux (c :: acc) rest

/-- strings.Split(v, "."). -/
def splitOnDot (s : String) : List String := splitDotAux [] s.toList

/-- strconv.Atoi: optional sign then a nonempty run of digits. -/
def goAtoi (s : String) : Option Int :=
  let step : Int × List Char → Option Int := fun (sign, ds) =>
    if ds = [] then none
    else if ds.all Char.isDigit then
      some (sign * (ds.foldl (fun acc c => acc * 10 + (c.toNat - 48)) 0 : Nat))
    else none
  match s.toList with
  | '+' :: rest => step (1, rest)
  | '-' :: rest => step (-1, rest)
  | rest => step (1, rest)

/-- Lexicographic comparison of character lists (strings.Compare). -/
def cmpChars : List Char → List Char → Int
  | [], [] => 0
  | [], _ :: _ => -1
  | _ :: _, [] => 1
  | a :: as, b :: bs =>
    if a.toNat < b.toNat then -1
    else if b.toNat < a.toNat then 1
    else cmpChars as bs

/-- strings.Compare as an integer result. -/
def compareStr (a b : String) : Int := cmpChars a.toList b.toList

/-- The component loop of compareVersions (distro.go lines 263-293):
numeric comparison when both components parse as integers, lexicographic
otherwise; running out of components first means smaller. -/
def cmpParts : List String → List String → Int
  | [], [] => 0
  | [], _ :: _ => -1
  | _ :: _, [] => 1
  | a :: as, b :: bs =>
    match goAtoi a, goAtoi b with
    | some n1, some n2 =>
      if n1 < n2 then -1 else if n1 > n2 then 1 else cmpParts as bs
    | _, _ =>
      let cm := compareStr a b
      if cm ≠ 0 then cm else cmpParts as bs

/-- compareVersions (distro.go lines 252-297): split on dots, compare
componentwise. -/
def compareVersions (v1 v2 : String) : Int :=
  cmpParts (splitOnDot v1) (splitOnDot v2)

/-- versionMeetsConstraint (distro.go lines 200-244): peel a leading
comparison operator (default equality) and compare. -/
def versionMeetsConstraint (version constraint : String) : Bool :=
  let pair : String × String :=
    if strStartsWith constraint ">=" then (">=", strDrop constraint 2)
    else if strStartsWith constraint ">" then (">", strDrop constraint 1)
    else if strStartsWith constraint "<=" then ("<=", strDrop constraint 2)
    else if strStartsWith constraint "<" then ("<", strDrop constraint 1)
    else if strStartsWith constraint "=" then ("=", strDrop constraint 1)
    else ("", constraint)
  let requiredVersion := strTrim pair.2
  let v := strTrim version
  let comparison := compareVersions v requiredVersion
  match pair.1 with
  | ">=" => decide (comparison ≥ 0)
  | ">" => decide (comparison > 0)
  | "<=" => decide (comparison ≤ 0)
  | "<" => decide (comparison < 0)
  | _ => decide (comparison = 0)

/-- C4: override precedence for settings is strictly global < package <
file: the resolved target directory is the file override's when that is
set, else the package override's when set, else the global one; and the
same explicitly-set-only rule holds for backupDir and the force pointer. -/
theorem claim_C4_overridePrecedence (c : Config) (rx : RegexOracle)
    (p : String) (r : Path) :
    ((c.GetEffectiveConfig rx p r).targetDir =
      match c.packages.lookup p with
      | none => c.targetDir
      | some pkg =>
        match findFileConfig rx pkg.files r with
        | none => if pkg.targetDir ≠ [] then pkg.targetDir else c.targetDir
        | some fc =>
          if fc.targetDir ≠ [] then fc.targetDir
          else if pkg.targetDir ≠ [] then pkg.targetDir
          else c.targetDir) ∧
    ((c.GetEffectiveConfig rx p r).backupDir =
      match c.packages.lookup p with
      | none => c.backupDir
      | some pkg =>
        match findFileConfig rx pkg.files r with
        | none => if pkg.backupDir ≠ [] then pkg.backupDir else c.backupDir
        | some fc =>
          if fc.backupDir ≠ [] then fc.backupDir
          else if pkg.backupDir ≠ [] then pkg.backupDir
          else c.backupDir) ∧
    ((c.GetEffectiveConfig rx p r).force =
      match c.packages.lookup p with
      | none => some c.force
      | some pkg =>
        match findFileConfig rx pkg.files r with
        | none => if pkg.force.isSome then pkg.force else some c.force
        | some fc =>
          if fc.force.isSome then fc.force
          else if pkg.force.isSome then pkg.force
          else some c.force) := by
  unfold Config.GetEffectiveConfig
  cases hl : c.packages.lookup p with
  | none => exact ⟨rfl, rfl, rfl⟩
  | some pkg =>
    dsimp only
    cases hf : findFileConfig rx pkg.files r with
    | none => exact ⟨rfl, rfl, rfl⟩
    | some fc => exact ⟨rfl, rfl, rfl⟩

/-- C5: conditions never merge across levels: a matched file override
with a non-nil condition set entirely replaces the package-level set,
and otherwise the package-level set applies unchanged. -/
theorem claim_C5_conditionsReplace (c : Config) (rx : RegexOracle)
    (p : String) (r : Path) :
    (c.GetEffectiveConfig rx p r).conditions =
      match c.packages.lookup p with
      | none => none
      | some pkg =>
        match findFileConfig rx pkg.files r with
        | none => pkg.conditions
        | some fc =>
          if fc.conditions.isSome then fc.conditions else pkg.conditions := by
  unfold Config.GetEffectiveConfig
  cases hl : c.packages.lookup p with
  | none => rfl
  | some pkg =>
    dsimp only
    cases hf : findFileConfig rx pkg.files r with
    | none => rfl
    | some fc => rfl

/-- C6: the resolved dryRun is the boolean OR of the global flag, the
package-level flag and the matched file-level flag, so a true at any
level makes the effective value true and a false at a more specific
level never turns an inherited true back off. -/
theorem claim_C6_dryRunMonotoneOr (c : Config) (rx : RegexOracle)
    (p : String) (r : Path) :
    (c.GetEffectiveConfig rx p r).dryRun =
      (c.dryRun ||
        match c.packages.lookup p with
        | none => false
        | some pkg =>
          (pkg.dryRun ||
            match findFileConfig rx pkg.files r with
            | none => false
            | some fc => fc.dryRun)) := by
  unfold Config.GetEffectiveConfig
  cases hl : c.packages.lookup p with
  | none => simp
  | some pkg =>
    dsimp only
    cases hf : findFileConfig rx pkg.files r with
    | none =>
      dsimp only
      cases pkg.dryRun <;> cases c.dryRun <;> rfl
    | some fc =>
      dsimp only
      cases fc.dryRun <;> cases pkg.dryRun <;> cases c.dryRun <;> rfl

/-- The regex scan is the first entry satisfying the regex-key test. -/
theorem firstRegexMatch_eq_findMap (rx : RegexOracle) (rel : Path) :
    ∀ files : List (String × FileConfig),
      firstRegexMatch rx rel files =
        (files.find? fun e =>
          strStartsWith e.1 "regex:" && rx (strDrop e.1 6) rel).map
          Prod.snd := by
  intro files
  induction files with
  | nil => rfl
  | cons e rest ih =>
    by_cases hc : (strStartsWith e.1 "regex:" && rx (strDrop e.1 6) rel) = true
    · simp [firstRegexMatch, List.find?, hc]
    · simp only [Bool.not_eq_true] at hc
      simp [firstRegexMatch, List.find?, hc, ih]

/-- C7: file-override lookup tries the exact entry for the base name
first — selected regardless of any regex entry that also matches — and
only when no exact entry exists scans for the first entry whose key
starts with "regex:" and whose stripped pattern matches the full
relative path. -/
theorem claim_C7_exactBeforeRegex (rx : RegexOracle)
    (files : List (String × FileConfig)) (rel : Path) :
    (∀ fc, files.lookup (baseName rel) = some fc →
        findFileConfig rx files rel = some fc) ∧
    (files.lookup (baseName rel) = none →
        findFileConfig rx files rel =
          (files.find? fun e =>
            strStartsWith e.1 "regex:" && rx (strDrop e.1 6) rel).map
            Prod.snd) := by
  constructor
  · intro fc h
    unfold findFileConfig
    rw [h]
  · intro h
    unfold findFileConfig
    rw [h]
    exact firstRegexMatch_eq_findMap rx rel files

/-- Witness for C7: with both an exact entry for the base name and a
regex entry matching everything, the exact entry is selected. -/
theorem claim_C7_exactBeforeRegex_witness :
    ([("conf", (⟨["e"], "", [], none, none, false, none⟩ : FileConfig)),
        ("regex:.*", (⟨["r"], "", [], none, none, false, none⟩ : FileConfig))].lookup
        (baseName ["sub", "conf"]) =
      some (⟨["e"], "", [], none, none, false, none⟩ : FileConfig)) ∧
    findFileConfig (fun _ _ => true)
        [("conf", ⟨["e"], "", [], none, none, false, none⟩),
         ("regex:.*", ⟨["r"], "", [], none, none, false, none⟩)]
        ["sub", "conf"] =
      some (⟨["e"], "", [], none, none, false, none⟩ : FileConfig) :=
  ⟨by decide,
    (claim_C7_exactBeforeRegex (fun _ _ => true)
        [("conf", ⟨["e"], "", [], none, none, false, none⟩),
         ("regex:.*", ⟨["r"], "", [], none, none, false, none⟩)]
        ["sub", "conf"]).1
      ⟨["e"], "", [], none, none, false, none⟩ (by decide)⟩

/-- C9: version comparison is componentwise on the dot-split parts —
numeric when both components parse as integers, lexicographic otherwise,
a missing component counting as smaller — and on the cited inputs
versionMeetsConstraint("3.1", ">=3.0") is true,
versionMeetsConstraint("2.9", ">=3.0") is false and
compareVersions("1.2", "1.2.0") is -1. -/
theorem claim_C9_versionComparison :
    versionMeetsConstraint "3.1" ">=3.0" = true ∧
    versionMeetsConstraint "2.9" ">=3.0" = false ∧
    compareVersions "1.2" "1.2.0" = -1 ∧
    (∀ (v w : String), compareVersions v w =
        cmpParts (splitOnDot v) (splitOnDot w)) ∧
    (∀ (a b : String) (as bs : List String) (n m : Int),
      goAtoi a = some n → goAtoi b = some m →
      cmpParts (a :: as) (b :: bs) =
        if n < m then -1 else if n > m then 1 else cmpParts as bs) ∧
    (∀ (a b : String) (as bs : List String),
      goAtoi a = none ∨ goAtoi b = none →
      cmpParts (a :: as) (b :: bs) =
        if compareStr a b ≠ 0 then compareStr a b else cmpParts as bs) ∧
    (∀ b : String, ∀ bs : List String, cmpParts [] (b :: bs) = -1) ∧
    (∀ a : String, ∀ as : List String, cmpParts (a :: as) [] = 1) := by
  refine ⟨by decide, by decide, by decide, fun v w => rfl, ?_, ?_, ?_, ?_⟩
  · intro a b as bs n m ha hb
    simp [cmpParts, ha, hb]
  · intro a b as bs h
    cases ha : goAtoi a with
    | none => simp [cmpParts, ha]
    | some n =>
      cases hb : goAtoi b with
      | none => simp [cmpParts, ha, hb]
      | some m =>
        rw [ha] at h
        rw [hb] at h
        rcases h with h | h <;> exact absurd h (by simp)
  · intro b bs
    rfl
  · intro a as
    rfl

/-- Witness for C9: the numeric-comparison conjunct applied at a
concrete pair of parsed components. -/
theorem claim_C9_versionComparison_witness :
    goAtoi "1" = some 1 ∧ goAtoi "0" = some 0 ∧
    cmpParts ["1"] ["0"] =
      if (1 : Int) < 0 then -1 else if (1 : Int) > 0 then 1
      else cmpParts [] [] := by
  refine ⟨by decide, by decide, ?_⟩
  exact claim_C9_versionComparison.2.2.2.2.1 "1" "0" [] [] 1 0
    (by decide) (by decide)

/-- C10: the resolved settings always carry non-nil force and verbose
pointers, so ShouldForce and ShouldBeVerbose are total dereferences. -/
theorem claim_C10_forceVerboseNonNil (c : Config) (rx : RegexOracle)
    (p : String) (r : Path) :
    ∃ bf bv, (c.GetEffectiveConfig rx p r).force = some bf ∧
      (c.GetEffectiveConfig rx p r).verbose = some bv ∧
      c.ShouldForce rx p r = bf ∧ c.ShouldBeVerbose rx p r = bv := by
  have hf := effectiveForce_isSome c rx p r
  have hv := effectiveVerbose_isSome c rx p r
  cases hcf : (c.GetEffectiveConfig rx p r).force with
  | none => rw [hcf] at hf; simp at hf
  | some bf =>
    cases hcv : (c.GetEffectiveConfig rx p r).verbose with
    | none => rw [hcv] at hv; simp at hv
    | some bv =>
      refine ⟨bf, bv, rfl, rfl, ?_, ?_⟩
      · simp [Config.ShouldForce, hcf]
      · simp [Config.ShouldBeVerbose, hcv]

/-! ## Filesystem model

The filesystem is an association list from literal absolute paths to
entries.  Lookup is by literal path (symlinks in parent positions are
not traversed); symlink resolution happens where the engine's syscalls
dereference: Stat, ReadFile, WriteFile and the directory check of
MkdirAll, each with fuel bounded by the filesystem size (a cycle models
ELOOP). -/

/-- A filesystem entry: regular file with abstract content, directory,
or symbolic link to a destination path. -/
inductive Entry where
  | file (content : Nat)
  | dir
  | symlink (dest : Path)
deriving DecidableEq, Repr

/-- The filesystem state. -/
abbrev FS := List (Path × Entry)

/-- os.Lstat: the entry stored at a path, not following links. -/
def fsFind (fs : FS) (p : Path) : Option Entry := fs.lookup p

/-- Drop every binding for a path. -/
def fsErase : FS → Path → FS
  | [], _ => []
  | (q, e) :: rest, p =>
    if q = p then fsErase rest p else (q, e) :: fsErase rest p

/-- Overwrite the entry at a path. -/
def fsSet (fs : FS) (p : Path) (e : Entry) : FS := (p, e) :: fsErase fs p

/-- os.Stat: follow symlink chains to the final entry. -/
def statFuel (fs : FS) : Nat → Path → Option Entry
  | 0, _ => none
  | fuel + 1, p =>
    match fsFind fs p with
    | some (.symlink d) => statFuel fs fuel d
    | some e => some e
    | none => none

/-- os.Stat with enough fuel for any acyclic chain. -/
def fsStat (fs : FS) (p : Path) : Option Entry :=
  statFuel fs (fs.length + 1) p

/-- The path an open-for-write lands on: follow symlink chains; a
missing final path is where the file gets created. -/
def resolveW (fs : FS) : Nat → Path → Option Path
  | 0, _ => none
  | fuel + 1, p =>
    match fsFind fs p with
    | some (.symlink d) => resolveW fs fuel d
    | _ => some p

/-- os.ReadFile: errors unless the path resolves to a regular file. -/
def readFileGo (fs : FS) (p : Path) : Option Nat :=
  match fsStat fs p with
  | some (.file c) => some c
  | _ => none

/-- os.WriteFile: resolve the path, then create or truncate a regular
file there; errors on a directory or an unresolvable chain. -/
def writeFileGo (fs : FS) (p : Path) (c : Nat) : Option FS :=
  match resolveW fs (fs.length + 1) p with
  | none => none
  | some q =>
    match fsFind fs q with
    | some .dir => none
    | _ => some (fsSet fs q (.file c))

/-- copyFile (io_utils.go): read the source, write the destination with
the same contents. -/
def copyFile (fs : FS) (src dst : Path) : Option FS :=
  match readFileGo fs src with
  | none => none
  | some c => writeFileGo fs dst c

/-- Whether any entry lies strictly below a path. -/
def hasChild (fs : FS) (p : Path) : Bool :=
  fs.any fun e => !(p == e.1) && p.isPrefixOf e.1

/-- os.Remove: delete the path's own entry; errors when the path is
missing or a non-empty directory. -/
def removeGo (fs : FS) (p : Path) : Option FS :=
  match fsFind fs p with
  | none => none
  | some .dir => if hasChild fs p then none else some (fsErase fs p)
  | some _ => some (fsErase fs p)

/-- A mutating filesystem operation, for the engines' traces. -/
inductive Op where
  | mkdirOp (p : Path)
  | copyOp (src dst : Path)
  | removeOp (p : Path)
  | symlinkOp (src dst : Path)
deriving DecidableEq, Repr

/-- Whether an entry passes MkdirAll's directory check (a symlink to a
directory counts). -/
def isDirLike (fs : FS) : Entry → Bool
  | .dir => true
  | .file _ => false
  | .symlink d =>
    match fsStat fs d with
    | some .dir => true
    | _ => false

/-- os.MkdirAll, creating missing components top-down; on a component
occupied by a non-directory the already-created prefix persists and an
error is reported. -/
def mkdirAllAux (fs : FS) (done : Path) : List String → FS × List Op × Bool
  | [] => (fs, [], false)
  | c :: rest =>
    let d := done ++ [c]
    match fsFind fs d with
    | none =>
      let r := mkdirAllAux (fsSet fs d .dir) d rest
      (r.1, .mkdirOp d :: r.2.1, r.2.2)
    | some e =>
      if isDirLike fs e then mkdirAllAux fs d rest
      else (fs, [], true)

/-- os.MkdirAll on a full path. -/
def mkdirAll (fs : FS) (p : Path) : FS × List Op × Bool := mkdirAllAux fs [] p

/-! ## The link and unlink engines -/

/-- The external collaborators of the engines: the regex oracle, the
resolved home directory, the environment-predicate oracle behind
MatchesConditions, and the interactive confirmation read. -/
structure Env where
  rx : RegexOracle
  home : Path
  matchesCond : ConditionSet → Bool
  confirm : Path → Bool

/-- A source-tree walk entry: path relative to the package root, in
traversal order, with its directory flag. -/
structure WalkEntry where
  rel : Path
  isDir : Bool
deriving DecidableEq, Repr

/-- The symlink-creation step of linkFile (link.go lines 202-224):
dry-run logs only; otherwise expand both paths and call os.Symlink,
which fails when the destination already exists. -/
def createLink (env : Env) (dry : Bool) (sourcePath targetPath : Path)
    (fs : FS) (ops : List Op) : FS × List Op × Bool :=
  if dry then (fs, ops, false)
  else
    let src := ExpandPath env.home sourcePath
    let dst := ExpandPath env.home targetPath
    match fsFind fs dst with
    | some _ => (fs, ops, true)
    | none => (fsSet fs dst (.symlink src), ops ++ [.symlinkOp src dst], false)

/-- The remove-then-link tail of linkFile's conflict branch (link.go
lines 189-224). -/
def removeThenLink (env : Env) (dry : Bool) (sourcePath targetPath : Path)
    (fs : FS) (ops : List Op) : FS × List Op × Bool :=
  if dry then (fs, ops, false)
  else
    match removeGo fs targetPath with
    | none => (fs, ops, true)
    | some fs1 =>
      createLink env dry sourcePath targetPath fs1 (ops ++ [.removeOp targetPath])

/-- linkFile (link.go lines 121-227): ensure the target's parent
directories, no-op when already correctly linked, otherwise confirm
(unless forced or dry-run), back up when backups are enabled, remove the
conflicting target and create the symlink; dry-run replaces every
mutating step by a log line. -/
def linkFile (c : Config) (env : Env) (sourcePath targetPath relPath : Path)
    (pkgName : String) (fs : FS) : FS × List Op × Bool :=
  let dry := c.IsDryRun env.rx pkgName relPath
  let s1 := if !dry then mkdirAll fs (dirName targetPath) else (fs, [], false)
  match s1 with
  | (fs1, ops1, true) => (fs1, ops1, true)
  | (fs1, ops1, false) =>
    match fsFind fs1 targetPath with
    | none => createLink env dry sourcePath targetPath fs1 ops1
    | some tentry =>
      if tentry = .symlink sourcePath then
        (fs1, ops1, false)
      else if !(c.ShouldForce env.rx pkgName relPath) && !dry
          && !(env.confirm targetPath) then
        (fs1, ops1, false)
      else
        match c.GetBackupPath env.rx env.home pkgName relPath with
        | none => removeThenLink env dry sourcePath targetPath fs1 ops1
        | some backupPath =>
          if dry then removeThenLink env dry sourcePath targetPath fs1 ops1
          else
            match mkdirAll fs1 (dirName backupPath) with
            | (fs2, ops2, true) => (fs2, ops1 ++ ops2, true)
            | (fs2, ops2, false) =>
              match copyFile fs2 targetPath backupPath with
              | none => (fs2, ops1 ++ ops2, true)
              | some fs3 =>
                removeThenLink env dry sourcePath targetPath fs3
                  (ops1 ++ ops2 ++ [.copyOp targetPath backupPath])

/-- One walk callback invocation of LinkPackage (link.go lines 68-117):
gate on the entry's resolved conditions, mirror directories with
MkdirAll (skipped under dry-run), delegate files to linkFile. -/
def linkStep (c : Config) (env : Env) (pkgName : String) (srcRoot : Path)
    (fs : FS) (w : WalkEntry) : FS × List Op × Bool :=
  let fileConfig := c.GetEffectiveConfig env.rx pkgName w.rel
  if (match fileConfig.conditions with
      | some cs => !env.matchesCond cs
      | none => false) then (fs, [], false)
  else
    let targetPath := c.GetTargetPath env.rx env.home pkgName w.rel
    if w.isDir then
      if c.IsDryRun env.rx pkgName w.rel then (fs, [], false)
      else mkdirAll fs targetPath
    else
      linkFile c env (srcRoot ++ w.rel) targetPath w.rel pkgName fs

/-- filepath.Walk in traversal order: run the per-entry step, abort the
remaining walk on the first error, keeping prior mutations. -/
def runWalk (step : FS → WalkEntry → FS × List Op × Bool) :
    FS → List WalkEntry → FS × List Op × Bool
  | fs, [] => (fs, [], false)
  | fs, w :: rest =>
    match step fs w with
    | (fs1, ops1, true) => (fs1, ops1, true)
    | (fs1, ops1, false) =>
      let r := runWalk step fs1 rest
      (r.1, ops1 ++ r.2.1, r.2.2)

/-- LinkPackage (link.go lines 41-118): gate on the package-level
conditions, require the source package directory to exist, then walk. -/
def LinkPackage (c : Config) (env : Env) (pkgName : String)
    (entries : List WalkEntry) (fs : FS) : FS × List Op × Bool :=
  let pkgConfig := c.GetEffectiveConfig env.rx pkgName []
  if (match pkgConfig.conditions with
      | some cs => !env.matchesCond cs
      | none => false) then (fs, [], false)
  else
    let pkgDir := c.GetSourcePath env.home pkgName
    match fsStat fs pkgDir with
    | none => (fs, [], true)
    | some _ => runWalk (linkStep c env pkgName pkgDir) fs entries

/-- unlinkFile (unlink.go lines 147-219): return unchanged when the
target is missing or not a symlink; remove a symlink only when its
destination equals the expected source (dry-run logs only); then, still
only on the symlink paths, attempt the backup restore: when a resolved
backup path exists and os.Stat succeeds there, copy it over the target
and delete the backup (deletion failure is a logged warning). -/
def unlinkFile (c : Config) (env : Env) (sourcePath targetPath relPath : Path)
    (pkgName : String) (fs : FS) : FS × List Op × Bool :=
  match fsFind fs targetPath with
  | none => (fs, [], false)
  | some (.file _) => (fs, [], false)
  | some .dir => (fs, [], false)
  | some (.symlink linkDest) =>
    let s1 : Option (FS × List Op) :=
      if linkDest = sourcePath then
        if c.IsDryRun env.rx pkgName relPath then some (fs, [])
        else
          match removeGo fs targetPath with
          | none => none
          | some fs1 => some (fs1, [.removeOp targetPath])
      else some (fs, [])
    match s1 with
    | none => (fs, [], true)
    | some (fs1, ops1) =>
      match c.GetBackupPath env.rx env.home pkgName relPath with
      | none => (fs1, ops1, false)
      | some backupPath =>
        match fsStat fs1 backupPath with
        | none => (fs1, ops1, false)
        | some _ =>
          if c.IsDryRun env.rx pkgName relPath then (fs1, ops1, false)
          else
            match copyFile fs1 backupPath targetPath with
            | none => (fs1, ops1, true)
            | some fs2 =>
              match removeGo fs2 backupPath with
              | none => (fs2, ops1 ++ [.copyOp backupPath targetPath], false)
              | some fs3 =>
                (fs3, ops1 ++ [.copyOp backupPath targetPath,
                  .removeOp backupPath], false)

/-- The walk phase of UnlinkPackage (unlink.go lines 66-102): record
directory targets for the deferred cleanup pass, delegate files to
unlinkFile, abort on the first error. -/
def unlinkWalk (c : Config) (env : Env) (pkgName : String) (srcRoot : Path) :
    FS → List Path → List WalkEntry → FS × List Path × List Op × Bool
  | fs, dirs, [] => (fs, dirs, [], false)
  | fs, dirs, w :: rest =>
    let fileConfig := c.GetEffectiveConfig env.rx pkgName w.rel
    if (match fileConfig.conditions with
        | some cs => !env.matchesCond cs
        | none => false) then
      unlinkWalk c env pkgName srcRoot fs dirs rest
    else
      let targetPath := c.GetTargetPath env.rx env.home pkgName w.rel
      if w.isDir then
        unlinkWalk c env pkgName srcRoot fs
          (if dirs.contains targetPath then dirs else dirs ++ [targetPath]) rest
      else
        match unlinkFile c env (srcRoot ++ w.rel) targetPath w.rel pkgName fs with
        | (fs1, ops1, true) => (fs1, dirs, ops1, true)
        | (fs1, ops1, false) =>
          let r := unlinkWalk c env pkgName srcRoot fs1 dirs rest
          (r.1, r.2.1, ops1 ++ r.2.2.1, r.2.2.2)

/-- Insertion step for the depth sort (deepest first, component count as
the separator-count proxy). -/
def insertByDepth (p : Path) : List Path → List Path
  | [] => [p]
  | q :: rest =>
    if q.length ≤ p.length then p :: q :: rest else q :: insertByDepth p rest

/-- sortByDepth (unlink.go lines 222-229). -/
def sortByDepth (paths : List Path) : List Path :=
  paths.foldr insertByDepth []

/-- How many entries a ReadDir of the path would report (resolving a
leaf symlink); none models a read error / missing directory. -/
def readDirCount (fs : FS) (p : Path) : Option Nat :=
  match resolveW fs (fs.length + 1) p with
  | none => none
  | some q =>
    match fsFind fs q with
    | some .dir =>
      some ((fs.filter fun e => !(q == e.1) && q.isPrefixOf e.1).length)
    | _ => none

/-- The deferred empty-directory cleanup pass of UnlinkPackage
(unlink.go lines 108-141): in depth order, remove a directory when it
reads back empty; read errors and removal failures are skipped. -/
def cleanupDirs (c : Config) (env : Env) (pkgName : String) :
    FS → List Path → FS × List Op
  | fs, [] => (fs, [])
  | fs, d :: rest =>
    match readDirCount fs d with
    | none => cleanupDirs c env pkgName fs rest
    | some n =>
      if n = 0 then
        if c.IsDryRun env.rx pkgName [] then cleanupDirs c env pkgName fs rest
        else
          match removeGo fs d with
          | none => cleanupDirs c env pkgName fs rest
          | some fs1 =>
            let r := cleanupDirs c env pkgName fs1 rest
            (r.1, .removeOp d :: r.2)
      else cleanupDirs c env pkgName fs rest

/-- UnlinkPackage (unlink.go lines 39-144): gate on the package-level
conditions, require the source package directory, walk, then (outside
dry-run) run the empty-directory cleanup on the recorded directory
targets sorted deepest first. -/
def UnlinkPackage (c : Config) (env : Env) (pkgName : String)
    (entries : List WalkEntry) (fs : FS) : FS × List Op × Bool :=
  let pkgConfig := c.GetEffectiveConfig env.rx pkgName []
  if (match pkgConfig.conditions with
      | some cs => !env.matchesCond cs
      | none => false) then (fs, [], false)
  else
    let pkgDir := c.GetSourcePath env.home pkgName
    match fsStat fs pkgDir with
    | none => (fs, [], true)
    | some _ =>
      match unlinkWalk c env pkgName pkgDir fs [] entries with
      | (fs1, _, ops1, true) => (fs1, ops1, true)
      | (fs1, dirs, ops1, false) =>
        if !(c.IsDryRun env.rx pkgName []) then
          let r := cleanupDirs c env pkgName fs1 (sortByDepth dirs)
          (r.1, ops1 ++ r.2, false)
        else (fs1, ops1, false)

/-! ## Dry-run lemmas -/

/-- A true global dryRun flag survives resolution at every level. -/
theorem isDryRun_global (c : Config) (rx : RegexOracle) (p : String)
    (r : Path) (h : c.dryRun = true) : c.IsDryRun rx p r = true := by
  unfold Config.IsDryRun Config.GetEffectiveConfig
  cases hl : c.packages.lookup p with
  | none => exact h
  | some pkg =>
    dsimp only
    cases hf : findFileConfig rx pkg.files r with
    | none =>
      dsimp only
      cases pkg.dryRun <;> simp [h]
    | some fc =>
      dsimp only
      cases fc.dryRun <;> cases pkg.dryRun <;> simp [h]

/-- Under effective dry-run, linkFile changes nothing and reports no
operation. -/
theorem linkFile_dry (c : Config) (env : Env)
    (sourcePath targetPath relPath : Path) (pkgName : String) (fs : FS)
    (h : c.IsDryRun env.rx pkgName relPath = true) :
    linkFile c env sourcePath targetPath relPath pkgName fs = (fs, [], false) := by
  unfold linkFile
  rw [h]
  simp only [Bool.not_true, Bool.false_eq_true, if_false, Bool.and_false,
    Bool.false_and, ite_self]
  cases hf : fsFind fs targetPath with
  | none => simp [createLink]
  | some tentry =>
    by_cases hc : tentry = Entry.symlink sourcePath
    · simp [hc]
    · simp only [hc, if_false]
      cases hb : c.GetBackupPath env.rx env.home pkgName relPath with
      | none => simp [removeThenLink]
      | some bp => simp [removeThenLink]

/-- Under effective dry-run, unlinkFile changes nothing and reports no
operation. -/
theorem unlinkFile_dry (c : Config) (env : Env)
    (sourcePath targetPath relPath : Path) (pkgName : String) (fs : FS)
    (h : c.IsDryRun env.rx pkgName relPath = true) :
    unlinkFile c env sourcePath targetPath relPath pkgName fs = (fs, [], false) := by
  unfold unlinkFile
  cases hf : fsFind fs targetPath with
  | none => rfl
  | some tentry =>
    cases tentry with
    | file cc => rfl
    | dir => rfl
    | symlink linkDest =>
      rw [h]
      by_cases hd : linkDest = sourcePath <;>
        · simp only [hd, if_true, if_false, ite_self]
          cases hb : c.GetBackupPath env.rx env.home pkgName relPath with
          | none => simp
          | some bp =>
            cases hs : fsStat fs bp with
            | none => simp [hs]
            | some e => simp [hs]

/-- A per-entry step that never changes state or emits operations makes
the whole walk a no-op. -/
theorem runWalk_congr_id (step : FS → WalkEntry → FS × List Op × Bool)
    (entries : List WalkEntry) (fs : FS)
    (h : ∀ g w, w ∈ entries → step g w = (g, [], false)) :
    runWalk step fs entries = (fs, [], false) := by
  induction entries generalizing fs with
  | nil => rfl
  | cons w rest ih =>
    have hw := h fs w (List.mem_cons_self w rest)
    unfold runWalk
    rw [hw]
    dsimp only
    rw [ih fs fun g v hv => h g v (List.mem_cons_of_mem w hv)]
    rfl

/-- Under a true global dryRun flag the unlink walk only records
directories. -/
theorem unlinkWalk_dry (c : Config) (env : Env) (pkgName : String)
    (srcRoot : Path) (h : c.dryRun = true) :
    ∀ (entries : List WalkEntry) (fs : FS) (dirs : List Path),
      ∃ dirs2, unlinkWalk c env pkgName srcRoot fs dirs entries =
        (fs, dirs2, [], false) := by
  intro entries
  induction entries with
  | nil => exact fun fs dirs => ⟨dirs, rfl⟩
  | cons w rest ih =>
    intro fs dirs
    unfold unlinkWalk
    by_cases hc : (match (c.GetEffectiveConfig env.rx pkgName w.rel).conditions with
        | some cs => !env.matchesCond cs
        | none => false) = true
    · rw [if_pos hc]
      exact ih fs dirs
    · rw [if_neg hc]
      by_cases hd : w.isDir = true

      · rw [if_pos hd]
        exact ih fs _
      · rw [if_neg hd]
        rw [unlinkFile_dry c env _ _ _ _ fs (isDryRun_global c env.rx pkgName w.rel h)]
        obtain ⟨dirs2, h2⟩ := ih fs dirs
        dsimp only
        rw [h2]
        exact ⟨dirs2, rfl⟩

/-- C3: with the global dryRun flag set, linking and unlinking a package
performs no filesystem mutation and records no create, copy, remove or
symlink operation, whatever the target tree holds and whether or not an
error aborts the walk. -/
theorem claim_C3_dryRunNoMutation (c : Config) (env : Env)
    (pkgName : String) (entries : List WalkEntry) (fs : FS)
    (h : c.dryRun = true) :
    (LinkPackage c env pkgName entries fs).1 = fs ∧
    (LinkPackage c env pkgName entries fs).2.1 = [] ∧
    (UnlinkPackage c env pkgName entries fs).1 = fs ∧
    (UnlinkPackage c env pkgName entries fs).2.1 = [] := by
  have hlink : (LinkPackage c env pkgName entries fs).1 = fs ∧
      (LinkPackage c env pkgName entries fs).2.1 = [] := by
    unfold LinkPackage
    by_cases hc : (match (c.GetEffectiveConfig env.rx pkgName []).conditions with
        | some cs => !env.matchesCond cs
        | none => false) = true
    · rw [if_pos hc]
      exact ⟨rfl, rfl⟩
    · rw [if_neg hc]
      dsimp only
      cases hs : fsStat fs (c.GetSourcePath env.home pkgName) with
      | none => exact ⟨rfl, rfl⟩
      | some e =>
        rw [runWalk_congr_id]
        · exact ⟨rfl, rfl⟩
        · intro g w _
          unfold linkStep
          by_cases hcw : (match (c.GetEffectiveConfig env.rx pkgName w.rel).conditions with
              | some cs => !env.matchesCond cs
              | none => false) = true
          · rw [if_pos hcw]
          · rw [if_neg hcw]
            dsimp only
            by_cases hd : w.isDir = true
            · rw [if_pos hd, if_pos (isDryRun_global c env.rx pkgName w.rel h)]
            · rw [if_neg hd,
                linkFile_dry c env _ _ _ _ g (isDryRun_global c env.rx pkgName w.rel h)]
  have hunlink : (UnlinkPackage c env pkgName entries fs).1 = fs ∧
      (UnlinkPackage c env pkgName entries fs).2.1 = [] := by
    unfold UnlinkPackage
    by_cases hc : (match (c.GetEffectiveConfig env.rx pkgName []).conditions with
        | some cs => !env.matchesCond cs
        | none => false) = true
    · rw [if_pos hc]
      exact ⟨rfl, rfl⟩
    · rw [if_neg hc]
      dsimp only
      cases hs : fsStat fs (c.GetSourcePath env.home pkgName) with
      | none => exact ⟨rfl, rfl⟩
      | some e =>
        obtain ⟨dirs2, hw⟩ :=
          unlinkWalk_dry c env pkgName (c.GetSourcePath env.home pkgName) h entries fs []
        rw [hw]
        dsimp only
        rw [isDryRun_global c env.rx pkgName [] h]
        exact ⟨rfl, rfl⟩
  exact ⟨hlink.1, hlink.2, hunlink.1, hunlink.2⟩

/-- Witness for C3: a dry-run configuration over a conflicting target
tree, mutated by neither engine. -/
theorem claim_C3_dryRunNoMutation_witness :
    ({ sourceDir := ["s"], targetDir := ["t"], backupDir := ["b"],
       force := true, verbose := false, dryRun := true,
       packages := [] } : Config).dryRun = true ∧
    ((LinkPackage
        { sourceDir := ["s"], targetDir := ["t"], backupDir := ["b"],
          force := true, verbose := false, dryRun := true, packages := [] }
        { rx := fun _ _ => false, home := ["h"],
          matchesCond := fun _ => true, confirm := fun _ => true }
        "p" [⟨["a"], false⟩]
        [(["s", "p"], .dir), (["s", "p", "a"], .file 1),
         (["t", "a"], .file 9), (["b", "a"], .file 7)]).1 =
      [(["s", "p"], .dir), (["s", "p", "a"], .file 1),
       (["t", "a"], .file 9), (["b", "a"], .file 7)] ∧
    (LinkPackage
        { sourceDir := ["s"], targetDir := ["t"], backupDir := ["b"],
          force := true, verbose := false, dryRun := true, packages := [] }
        { rx := fun _ _ => false, home := ["h"],
          matchesCond := fun _ => true, confirm := fun _ => true }
        "p" [⟨["a"], false⟩]
        [(["s", "p"], .dir), (["s", "p", "a"], .file 1),
         (["t", "a"], .file 9), (["b", "a"], .file 7)]).2.1 = [] ∧
    (UnlinkPackage
        { sourceDir := ["s"], targetDir := ["t"], backupDir := ["b"],
          force := true, verbose := false, dryRun := true, packages := [] }
        { rx := fun _ _ => false, home := ["h"],
          matchesCond := fun _ => true, confirm := fun _ => true }
        "p" [⟨["a"], false⟩]
        [(["s", "p"], .dir), (["s", "p", "a"], .file 1),
         (["t", "a"], .file 9), (["b", "a"], .file 7)]).1 =
      [(["s", "p"], .dir), (["s", "p", "a"], .file 1),
       (["t", "a"], .file 9), (["b", "a"], .file 7)] ∧
    (UnlinkPackage
        { sourceDir := ["s"], targetDir := ["t"], backupDir := ["b"],
          force := true, verbose := false, dryRun := true, packages := [] }
        { rx := fun _ _ => false, home := ["h"],
          matchesCond := fun _ => true, confirm := fun _ => true }
        "p" [⟨["a"], false⟩]
        [(["s", "p"], .dir), (["s", "p", "a"], .file 1),
         (["t", "a"], .file 9), (["b", "a"], .file 7)]).2.1 = []) :=
  ⟨rfl, claim_C3_dryRunNoMutation _ _ "p" _ _ rfl⟩

/-! ## Basic filesystem lemmas -/

/-- Erasing one path leaves lookups at other paths unchanged. -/
theorem fsFind_fsErase_ne (fs : FS) (p q : Path) (h : q ≠ p) :
    fsFind (fsErase fs p) q = fsFind fs q := by
  induction fs with
  | nil => rfl
  | cons kv rest ih =>
    obtain ⟨k, v⟩ := kv
    unfold fsErase
    by_cases hk : k = p
    · rw [if_pos hk, ih]
      have hqk : (q == k) = false := by
        rw [hk]
        simp only [beq_eq_false_iff_ne, ne_eq]
        exact h
      simp only [fsFind, List.lookup, hqk]
    · rw [if_neg hk]
      simp only [fsFind, List.lookup]
      cases hqk : q == k
      · simp only [hqk]
        exact ih
      · simp only [hqk]

/-- Setting one path leaves lookups at other paths unchanged. -/
theorem fsFind_fsSet_ne (fs : FS) (p q : Path) (e : Entry) (h : q ≠ p) :
    fsFind (fsSet fs p e) q = fsFind fs q := by
  unfold fsSet
  have h2 : (q == p) = false := by
    simp only [beq_eq_false_iff_ne, ne_eq]
    exact h
  calc fsFind ((p, e) :: fsErase fs p) q
      = fsFind (fsErase fs p) q := by simp [fsFind, List.lookup, h2]
    _ = fsFind fs q := fsFind_fsErase_ne fs p q h

/-- Write resolution never lands on a path still holding a symlink. -/
theorem resolveW_find_not_symlink (fs : FS) :
    ∀ (fuel : Nat) (p q : Path), resolveW fs fuel p = some q →
      ∀ d, fsFind fs q ≠ some (.symlink d) := by
  intro fuel
  induction fuel with
  | zero =>
    intro p q h
    simp [resolveW] at h
  | succ n ih =>
    intro p q h d
    unfold resolveW at h
    cases hf : fsFind fs p with
    | none =>
      rw [hf] at h
      simp only [Option.some.injEq] at h
      rw [← h, hf]
      simp
    | some e =>
      cases e with
      | symlink d2 =>
        rw [hf] at h
        exact ih d2 q h d
      | file cc =>
        rw [hf] at h
        simp only [Option.some.injEq] at h
        rw [← h, hf]
        simp
      | dir =>
        rw [hf] at h
        simp only [Option.some.injEq] at h
        rw [← h, hf]
        simp

/-- Writing through a path that holds a symlink leaves that path's own
entry unchanged. -/
theorem writeFileGo_preserves_symlink (fs : FS) (tgt : Path) (cc : Nat)
    (fs2 : FS) (d : Path) (htgt : fsFind fs tgt = some (.symlink d))
    (hw : writeFileGo fs tgt cc = some fs2) :
    fsFind fs2 tgt = fsFind fs tgt := by
  unfold writeFileGo at hw
  cases hr : resolveW fs (fs.length + 1) tgt with
  | none => rw [hr] at hw; exact absurd hw (by simp)
  | some q =>
    rw [hr] at hw
    dsimp only at hw
    have hq : tgt ≠ q := by
      intro he
      exact resolveW_find_not_symlink fs _ _ _ hr d (he ▸ htgt)
    cases hfq : fsFind fs q with
    | none =>
      rw [hfq] at hw
      simp only [Option.some.injEq] at hw
      rw [← hw]
      exact fsFind_fsSet_ne fs q tgt _ hq
    | some e =>
      cases e with
      | dir => rw [hfq] at hw; exact absurd hw (by simp)
      | file c2 =>
        rw [hfq] at hw
        simp only [Option.some.injEq] at hw
        rw [← hw]
        exact fsFind_fsSet_ne fs q tgt _ hq
      | symlink d2 =>
        rw [hfq] at hw
        simp only [Option.some.injEq] at hw
        rw [← hw]
        exact fsFind_fsSet_ne fs q tgt _ hq

/-- A successful os.Remove is exactly erasure of the path's entry. -/
theorem removeGo_eq_erase (fs : FS) (p : Path) (fs2 : FS)
    (h : removeGo fs p = some fs2) : fs2 = fsErase fs p := by
  unfold removeGo at h
  cases hf : fsFind fs p with
  | none => rw [hf] at h; exact absurd h (by simp)
  | some e =>
    cases e with
    | dir =>
      rw [hf] at h
      by_cases hc : hasChild fs p = true
      · rw [if_pos hc] at h
        exact absurd h (by simp)
      · rw [if_neg hc] at h
        exact (Option.some.injEq _ _ ▸ h).symm
    | file cc =>
      rw [hf] at h
      exact (Option.some.injEq _ _ ▸ h).symm
    | symlink d =>
      rw [hf] at h
      exact (Option.some.injEq _ _ ▸ h).symm

/-- Copying onto a path that holds a symlink writes through the link,
leaving the path's own entry unchanged. -/
theorem copyFile_preserves_symlink (fs : FS) (bp tgt : Path) (fs2 : FS)
    (d : Path) (htgt : fsFind fs tgt = some (.symlink d))
    (h : copyFile fs bp tgt = some fs2) :
    fsFind fs2 tgt = fsFind fs tgt := by
  unfold copyFile at h
  cases hr : readFileGo fs bp with
  | none => rw [hr] at h; exact absurd h (by simp)
  | some cc =>
    rw [hr] at h
    exact writeFileGo_preserves_symlink fs tgt cc fs2 d htgt h

/-- C2 (amended): provided the resolved backup path is not the target
path itself, unlinkFile never removes — indeed never alters — a target
that is missing, not a symlink, or a symlink whose destination differs
from the expected source path; a remove of the target happens only when
the target is a symlink whose destination equals the source path. -/
theorem claim_C2_ownershipSafety (c : Config) (env : Env)
    (sourcePath targetPath relPath : Path) (pkgName : String) (fs : FS)
    (hbpne : c.GetBackupPath env.rx env.home pkgName relPath ≠ some targetPath) :
    (fsFind fs targetPath ≠ some (.symlink sourcePath) →
      fsFind (unlinkFile c env sourcePath targetPath relPath pkgName fs).1
          targetPath = fsFind fs targetPath ∧
      Op.removeOp targetPath ∉
        (unlinkFile c env sourcePath targetPath relPath pkgName fs).2.1) ∧
    (Op.removeOp targetPath ∈
        (unlinkFile c env sourcePath targetPath relPath pkgName fs).2.1 →
      fsFind fs targetPath = some (.symlink sourcePath)) := by
  cases hf : fsFind fs targetPath with
  | none =>
    have hres : unlinkFile c env sourcePath targetPath relPath pkgName fs =
        (fs, [], false) := by
      simp [unlinkFile, hf]
    rw [hres]
    exact ⟨fun _ => ⟨hf, by simp⟩, fun hm => absurd hm (by simp)⟩
  | some tentry =>
    cases tentry with
    | file cc =>
      have hres : unlinkFile c env sourcePath targetPath relPath pkgName fs =
          (fs, [], false) := by
        simp [unlinkFile, hf]
      rw [hres]
      exact ⟨fun _ => ⟨hf, by simp⟩, fun hm => absurd hm (by simp)⟩
    | dir =>
      have hres : unlinkFile c env sourcePath targetPath relPath pkgName fs =
          (fs, [], false) := by
        simp [unlinkFile, hf]
      rw [hres]
      exact ⟨fun _ => ⟨hf, by simp⟩, fun hm => absurd hm (by simp)⟩
    | symlink ld =>
      by_cases hld : ld = sourcePath
      · subst hld
        exact ⟨fun hne => absurd rfl hne, fun _ => rfl⟩
      · cases hb : c.GetBackupPath env.rx env.home pkgName relPath with
        | none =>
          have hres : unlinkFile c env sourcePath targetPath relPath pkgName fs =
              (fs, [], false) := by
            simp [unlinkFile, hf, hld, hb]
          rw [hres]
          exact ⟨fun _ => ⟨hf, by simp⟩, fun hm => absurd hm (by simp)⟩
        | some bp =>
          have hbptgt : bp ≠ targetPath := by
            intro he
            exact hbpne (hb.trans (by rw [he]))
          cases hst : fsStat fs bp with
          | none =>
            have hres : unlinkFile c env sourcePath targetPath relPath pkgName fs =
                (fs, [], false) := by
              simp [unlinkFile, hf, hld, hb, hst]
            rw [hres]
            exact ⟨fun _ => ⟨hf, by simp⟩, fun hm => absurd hm (by simp)⟩
          | some e0 =>
            by_cases hdry : c.IsDryRun env.rx pkgName relPath = true
            · have hres : unlinkFile c env sourcePath targetPath relPath pkgName fs =
                  (fs, [], false) := by
                simp [unlinkFile, hf, hld, hb, hst, hdry]
              rw [hres]
              exact ⟨fun _ => ⟨hf, by simp⟩, fun hm => absurd hm (by simp)⟩
            · cases hcp : copyFile fs bp targetPath with
              | none =>
                have hres : unlinkFile c env sourcePath targetPath relPath pkgName fs =
                    (fs, [], true) := by
                  simp [unlinkFile, hf, hld, hb, hst, hdry, hcp]
                rw [hres]
                exact ⟨fun _ => ⟨hf, by simp⟩, fun hm => absurd hm (by simp)⟩
              | some fs2 =>
                have hpres : fsFind fs2 targetPath = fsFind fs targetPath :=
                  copyFile_preserves_symlink fs bp targetPath fs2 ld hf hcp
                cases hrm : removeGo fs2 bp with
                | none =>
                  have hres : unlinkFile c env sourcePath targetPath relPath pkgName fs =
                      (fs2, [Op.copyOp bp targetPath], false) := by
                    simp [unlinkFile, hf, hld, hb, hst, hdry, hcp, hrm]
                  rw [hres]
                  refine ⟨fun hne => ⟨?_, ?_⟩, fun hm => ?_⟩
                  · rw [show (fs2, [Op.copyOp bp targetPath], false).1 = fs2 from rfl,
                      hpres]
                    exact hf
                  · simp
                  · simp at hm
                | some fs3 =>
                  have hfs3 : fs3 = fsErase fs2 bp :=
                    removeGo_eq_erase fs2 bp fs3 hrm
                  have hres : unlinkFile c env sourcePath targetPath relPath pkgName fs =
                      (fs3, [Op.copyOp bp targetPath, Op.removeOp bp], false) := by
                    simp [unlinkFile, hf, hld, hb, hst, hdry, hcp, hrm]
                  rw [hres]
                  refine ⟨fun hne => ⟨?_, ?_⟩, fun hm => ?_⟩
                  · rw [show (fs3, [Op.copyOp bp targetPath, Op.removeOp bp],
                        false).1 = fs3 from rfl,
                      hfs3,
                      fsFind_fsErase_ne fs2 bp targetPath
                        (fun he => hbptgt he.symm),
                      hpres]
                    exact hf
                  · intro hm
                    rcases List.mem_cons.mp hm with h1 | h1
                    · exact Op.noConfusion h1
                    · have h2 := List.mem_singleton.mp h1
                      have h3 : targetPath = bp := by
                        injection h2
                      exact hbptgt h3.symm
                  · exfalso
                    rcases List.mem_cons.mp hm with h1 | h1
                    · exact Op.noConfusion h1
                    · have h2 := List.mem_singleton.mp h1
                      have h3 : targetPath = bp := by
                        injection h2
                      exact hbptgt h3.symm

/-- Counterexample to C2 as stated: with backup_dir equal to target_dir
the resolved backup path aliases the target, and unlinking deletes a
foreign symlink (destination differs from the source) as "the backup". -/
theorem claim_C2_counterexample :
    fsFind [(["t", "a"], Entry.symlink ["x", "f"]), (["x", "f"], Entry.file 9)]
        ["t", "a"] = some (.symlink ["x", "f"]) ∧
    (["x", "f"] : Path) ≠ ["s", "p", "a"] ∧
    Op.removeOp ["t", "a"] ∈
      (unlinkFile
        { sourceDir := ["s"], targetDir := ["t"], backupDir := ["t"],
          force := false, verbose := false, dryRun := false, packages := [] }
        { rx := fun _ _ => false, home := ["h"],
          matchesCond := fun _ => true, confirm := fun _ => false }
        ["s", "p", "a"] ["t", "a"] ["a"] "p"
        [(["t", "a"], Entry.symlink ["x", "f"]),
         (["x", "f"], Entry.file 9)]).2.1 ∧
    fsFind (unlinkFile
        { sourceDir := ["s"], targetDir := ["t"], backupDir := ["t"],
          force := false, verbose := false, dryRun := false, packages := [] }
        { rx := fun _ _ => false, home := ["h"],
          matchesCond := fun _ => true, confirm := fun _ => false }
        ["s", "p", "a"] ["t", "a"] ["a"] "p"
        [(["t", "a"], Entry.symlink ["x", "f"]),
         (["x", "f"], Entry.file 9)]).1 ["t", "a"] = none := by
  refine ⟨by decide, by decide, by decide, by decide⟩

/-- Witness for C2 (amended): a plain-file target with a distinct backup
directory is left untouched. -/
theorem claim_C2_ownershipSafety_witness :
    (({ sourceDir := ["s"], targetDir := ["t"], backupDir := ["b"],
        force := false, verbose := false, dryRun := false,
        packages := [] } : Config).GetBackupPath (fun _ _ => false) ["h"]
        "p" ["a"] ≠ some ["t", "a"]) ∧
    ((fsFind [(["t", "a"], Entry.file 5)] ["t", "a"] ≠
        some (.symlink ["s", "p", "a"]) →
      fsFind (unlinkFile
          { sourceDir := ["s"], targetDir := ["t"], backupDir := ["b"],
            force := false, verbose := false, dryRun := false, packages := [] }
          { rx := fun _ _ => false, home := ["h"],
            matchesCond := fun _ => true, confirm := fun _ => false }
          ["s", "p", "a"] ["t", "a"] ["a"] "p"
          [(["t", "a"], Entry.file 5)]).1 ["t", "a"] =
        fsFind [(["t", "a"], Entry.file 5)] ["t", "a"] ∧
      Op.removeOp ["t", "a"] ∉
        (unlinkFile
          { sourceDir := ["s"], targetDir := ["t"], backupDir := ["b"],
            force := false, verbose := false, dryRun := false, packages := [] }
          { rx := fun _ _ => false, home := ["h"],
            matchesCond := fun _ => true, confirm := fun _ => false }
          ["s", "p", "a"] ["t", "a"] ["a"] "p"
          [(["t", "a"], Entry.file 5)]).2.1) ∧
    (Op.removeOp ["t", "a"] ∈
        (unlinkFile
          { sourceDir := ["s"], targetDir := ["t"], backupDir := ["b"],
            force := false, verbose := false, dryRun := false, packages := [] }
          { rx := fun _ _ => false, home := ["h"],
            matchesCond := fun _ => true, confirm := fun _ => false }
          ["s", "p", "a"] ["t", "a"] ["a"] "p"
          [(["t", "a"], Entry.file 5)]).2.1 →
      fsFind [(["t", "a"], Entry.file 5)] ["t", "a"] =
        some (.symlink ["s", "p", "a"]))) :=
  ⟨by decide,
    claim_C2_ownershipSafety _ _ ["s", "p", "a"] ["t", "a"] ["a"] "p"
      [(["t", "a"], Entry.file 5)] (by decide)⟩

/-- Erasing a path removes every binding for it. -/
theorem fsFind_fsErase_self (fs : FS) (p : Path) :
    fsFind (fsErase fs p) p = none := by
  induction fs with
  | nil => rfl
  | cons kv rest ih =>
    obtain ⟨k, v⟩ := kv
    unfold fsErase
    by_cases hk : k = p
    · rw [if_pos hk]
      exact ih
    · rw [if_neg hk]
      have hpk : (p == k) = false := by
        simp only [beq_eq_false_iff_ne, ne_eq]
        exact fun he => hk he.symm
      simp only [fsFind, List.lookup, hpk]
      exact ih

/-- Setting a path makes lookup there return the new entry. -/
theorem fsFind_fsSet_self (fs : FS) (p : Path) (e : Entry) :
    fsFind (fsSet fs p e) p = some e := by
  simp [fsSet, fsFind, List.lookup]

/-- A direct regular file needs a single Stat step. -/
theorem fsStat_of_file (fs : FS) (p : Path) (cc : Nat)
    (h : fsFind fs p = some (.file cc)) : fsStat fs p = some (.file cc) := by
  simp [fsStat, statFuel, h]

/-- Write resolution stops at a path not holding a symlink. -/
theorem resolveW_of_not_symlink (fs : FS) (p : Path) (fuel : Nat)
    (h : ∀ d2, fsFind fs p ≠ some (.symlink d2)) :
    resolveW fs (fuel + 1) p = some p := by
  unfold resolveW
  cases hf : fsFind fs p with
  | none => rfl
  | some e =>
    cases e with
    | symlink d2 => exact absurd hf (h d2)
    | file cc => rfl
    | dir => rfl

/-- A filesystem with a successful lookup is nonempty. -/
theorem length_succ_of_find (fs : FS) (p : Path) (e : Entry)
    (h : fsFind fs p = some e) : ∃ k, fs.length = k + 1 := by
  cases fs with
  | nil => exact absurd h (by simp [fsFind, List.lookup])
  | cons kv rest => exact ⟨rest.length, rfl⟩

/-- C8 (amended): when — and only when — the target is a symlink does
unlinkFile reach the restore step (it returns early on a missing or
non-symlink target); there, given a non-empty resolved backup path
distinct from the target holding a regular file (and a writable
destination), the backup is copied over the target path and then
deleted, independently of whether the symlink-removal branch fired;
under dry-run the restore is only logged and nothing changes. -/
theorem claim_C8_restoreOnSymlink (c : Config) (env : Env)
    (sourcePath targetPath relPath bp : Path) (pkgName : String)
    (fs : FS) (d : Path) (cc : Nat)
    (htgt : fsFind fs targetPath = some (.symlink d))
    (hb : c.GetBackupPath env.rx env.home pkgName relPath = some bp)
    (hbptgt : bp ≠ targetPath)
    (hbpfile : fsFind fs bp = some (.file cc))
    (hwrite : d = sourcePath ∨ fsFind fs d = none ∨
      ∃ e, fsFind fs d = some (.file e)) :
    (c.IsDryRun env.rx pkgName relPath = false →
      Op.copyOp bp targetPath ∈
        (unlinkFile c env sourcePath targetPath relPath pkgName fs).2.1 ∧
      fsFind (unlinkFile c env sourcePath targetPath relPath pkgName fs).1
        bp = none ∧
      (d = sourcePath →
        fsFind (unlinkFile c env sourcePath targetPath relPath pkgName fs).1
          targetPath = some (.file cc))) ∧
    (c.IsDryRun env.rx pkgName relPath = true →
      unlinkFile c env sourcePath targetPath relPath pkgName fs =
        (fs, [], false)) := by
  constructor
  · intro hdry
    by_cases hds : d = sourcePath
    · have h1 : removeGo fs targetPath = some (fsErase fs targetPath) := by
        simp [removeGo, htgt]
      have h2 : fsFind (fsErase fs targetPath) bp = some (.file cc) := by
        rw [fsFind_fsErase_ne fs targetPath bp hbptgt]
        exact hbpfile
      have h3 : fsStat (fsErase fs targetPath) bp = some (.file cc) :=
        fsStat_of_file _ bp cc h2
      have h4 : readFileGo (fsErase fs targetPath) bp = some cc := by
        simp [readFileGo, h3]
      have h5 : fsFind (fsErase fs targetPath) targetPath = none :=
        fsFind_fsErase_self fs targetPath
      have h6 : writeFileGo (fsErase fs targetPath) targetPath cc =
          some (fsSet (fsErase fs targetPath) targetPath (.file cc)) := by
        unfold writeFileGo
        rw [resolveW_of_not_symlink _ _ _ (by simp [h5])]
        simp [h5]
      have h8 : copyFile (fsErase fs targetPath) bp targetPath =
          some (fsSet (fsErase fs targetPath) targetPath (.file cc)) := by
        simp [copyFile, h4, h6]
      have h9 : fsFind (fsSet (fsErase fs targetPath) targetPath
          (.file cc)) bp = some (.file cc) := by
        rw [fsFind_fsSet_ne _ _ _ _ hbptgt]
        exact h2
      have h10 : removeGo (fsSet (fsErase fs targetPath) targetPath
          (.file cc)) bp =
          some (fsErase (fsSet (fsErase fs targetPath) targetPath
            (.file cc)) bp) := by
        simp [removeGo, h9]
      have hres : unlinkFile c env sourcePath targetPath relPath pkgName fs =
          (fsErase (fsSet (fsErase fs targetPath) targetPath (.file cc)) bp,
           [Op.removeOp targetPath, Op.copyOp bp targetPath, Op.removeOp bp],
           false) := by
        simp [unlinkFile, htgt, hdry, hb, hds, h1, h3, h8, h10]
      rw [hres]
      refine ⟨by simp, ?_, fun _ => ?_⟩
      · exact fsFind_fsErase_self _ bp
      · rw [show (fsErase (fsSet (fsErase fs targetPath) targetPath
            (.file cc)) bp,
            [Op.removeOp targetPath, Op.copyOp bp targetPath,
              Op.removeOp bp], false).1 =
            fsErase (fsSet (fsErase fs targetPath) targetPath (.file cc)) bp
            from rfl,
          fsFind_fsErase_ne _ bp targetPath (fun he => hbptgt he.symm),
          fsFind_fsSet_self]
    · have hdterm : ∀ d2, fsFind fs d ≠ some (.symlink d2) := by
        intro d2 hcon
        rcases hwrite with h | h | ⟨e, h⟩
        · exact hds h
        · rw [h] at hcon
          exact Option.noConfusion hcon
        · rw [h] at hcon
          exact Entry.noConfusion (Option.some.injEq _ _ ▸ hcon)
      have h3 : fsStat fs bp = some (.file cc) := fsStat_of_file fs bp cc hbpfile
      have h4 : readFileGo fs bp = some cc := by simp [readFileGo, h3]
      obtain ⟨k, hk⟩ := length_succ_of_find fs targetPath _ htgt
      have hstep : resolveW fs (k + 1 + 1) targetPath =
          resolveW fs (k + 1) d := by
        conv_lhs => rw [resolveW]
        rw [htgt]
      have h6 : writeFileGo fs targetPath cc =
          some (fsSet fs d (.file cc)) := by
        unfold writeFileGo
        rw [hk, hstep, resolveW_of_not_symlink fs d k hdterm]
        rcases hwrite with h | h | ⟨e, h⟩
        · exact absurd h hds
        · simp [h]
        · simp [h]
      have h8 : copyFile fs bp targetPath = some (fsSet fs d (.file cc)) := by
        simp [copyFile, h4, h6]
      have h9 : ∃ e2, fsFind (fsSet fs d (.file cc)) bp = some e2 := by
        by_cases hdb : d = bp
        · subst hdb
          exact ⟨_, fsFind_fsSet_self fs d (.file cc)⟩
        · rw [fsFind_fsSet_ne fs d bp _ (fun he => hdb he.symm)]
          exact ⟨_, hbpfile⟩
      obtain ⟨e2, h9⟩ := h9
      have he2 : e2 = .file cc ∨ e2 = .file cc ∨ True := by simp
      have h10 : removeGo (fsSet fs d (.file cc)) bp =
          some (fsErase (fsSet fs d (.file cc)) bp) := by
        by_cases hdb : d = bp
        · subst hdb
          rw [fsFind_fsSet_self fs d (.file cc)] at h9
          unfold removeGo
          rw [fsFind_fsSet_self]
        · rw [fsFind_fsSet_ne fs d bp _ (fun he => hdb he.symm)] at h9
          unfold removeGo
          rw [fsFind_fsSet_ne fs d bp _ (fun he => hdb he.symm), hbpfile]
      have hres : unlinkFile c env sourcePath targetPath relPath pkgName fs =
          (fsErase (fsSet fs d (.file cc)) bp,
           [Op.copyOp bp targetPath, Op.removeOp bp], false) := by
        simp [unlinkFile, htgt, hdry, hb, hds, h3, h8, h10]
      rw [hres]
      refine ⟨by simp, ?_, fun hcon => absurd hcon hds⟩
      exact fsFind_fsErase_self _ bp
  · intro hdry
    have h3 : fsStat fs bp = some (.file cc) := fsStat_of_file fs bp cc hbpfile
    by_cases hds : d = sourcePath
    · simp [unlinkFile, htgt, hdry, hb, hds, h3]
    · simp [unlinkFile, htgt, hdry, hb, hds, h3]

/-- Counterexample to C8 as stated: a plain-file target with an existing
backup file and a non-empty backup path — unlinkFile returns before the
restore step, copying nothing and keeping the backup. -/
theorem claim_C8_counterexample :
    ({ sourceDir := ["s"], targetDir := ["t"], backupDir := ["b"],
       force := false, verbose := false, dryRun := false,
       packages := [] } : Config).GetBackupPath (fun _ _ => false) ["h"]
      "p" ["a"] = some ["b", "a"] ∧
    fsFind [(["t", "a"], Entry.file 5), (["b", "a"], Entry.file 7)]
      ["b", "a"] = some (.file 7) ∧
    unlinkFile
      { sourceDir := ["s"], targetDir := ["t"], backupDir := ["b"],
        force := false, verbose := false, dryRun := false, packages := [] }
      { rx := fun _ _ => false, home := ["h"],
        matchesCond := fun _ => true, confirm := fun _ => false }
      ["s", "p", "a"] ["t", "a"] ["a"] "p"
      [(["t", "a"], Entry.file 5), (["b", "a"], Entry.file 7)] =
      ([(["t", "a"], Entry.file 5), (["b", "a"], Entry.file 7)], [], false) := by
  refine ⟨by decide, by decide, by decide⟩

/-- Witness for C8 (amended): an owned symlink target with a backup file
in a distinct backup directory gets removed, restored and its backup
deleted. -/
theorem claim_C8_restoreOnSymlink_witness :
    (fsFind [(["t", "a"], Entry.symlink ["s", "p", "a"]),
        (["b", "a"], Entry.file 7), (["s", "p", "a"], Entry.file 1)]
        ["t", "a"] = some (.symlink ["s", "p", "a"])) ∧
    (({ sourceDir := ["s"], targetDir := ["t"], backupDir := ["b"],
        force := false, verbose := false, dryRun := false,
        packages := [] } : Config).GetBackupPath (fun _ _ => false) ["h"]
        "p" ["a"] = some ["b", "a"]) ∧
    ((["b", "a"] : Path) ≠ ["t", "a"]) ∧
    (Op.copyOp ["b", "a"] ["t", "a"] ∈
      (unlinkFile
        { sourceDir := ["s"], targetDir := ["t"], backupDir := ["b"],
          force := false, verbose := false, dryRun := false, packages := [] }
        { rx := fun _ _ => false, home := ["h"],
          matchesCond := fun _ => true, confirm := fun _ => false }
        ["s", "p", "a"] ["t", "a"] ["a"] "p"
        [(["t", "a"], Entry.symlink ["s", "p", "a"]),
         (["b", "a"], Entry.file 7), (["s", "p", "a"], Entry.file 1)]).2.1 ∧
    fsFind (unlinkFile
        { sourceDir := ["s"], targetDir := ["t"], backupDir := ["b"],
          force := false, verbose := false, dryRun := false, packages := [] }
        { rx := fun _ _ => false, home := ["h"],
          matchesCond := fun _ => true, confirm := fun _ => false }
        ["s", "p", "a"] ["t", "a"] ["a"] "p"
        [(["t", "a"], Entry.symlink ["s", "p", "a"]),
         (["b", "a"], Entry.file 7), (["s", "p", "a"], Entry.file 1)]).1
      ["b", "a"] = none ∧
    (["s", "p", "a"] = (["s", "p", "a"] : Path) →
      fsFind (unlinkFile
        { sourceDir := ["s"], targetDir := ["t"], backupDir := ["b"],
          force := false, verbose := false, dryRun := false, packages := [] }
        { rx := fun _ _ => false, home := ["h"],
          matchesCond := fun _ => true, confirm := fun _ => false }
        ["s", "p", "a"] ["t", "a"] ["a"] "p"
        [(["t", "a"], Entry.symlink ["s", "p", "a"]),
         (["b", "a"], Entry.file 7), (["s", "p", "a"], Entry.file 1)]).1
      ["t", "a"] = some (.file 7))) :=
  ⟨by decide, by decide, by decide,
    (claim_C8_restoreOnSymlink _ _ ["s", "p", "a"] ["t", "a"] ["a"]
      ["b", "a"] "p"
      [(["t", "a"], Entry.symlink ["s", "p", "a"]),
       (["b", "a"], Entry.file 7), (["s", "p", "a"], Entry.file 1)]
      ["s", "p", "a"] 7 (by decide) (by decide) (by decide) (by decide)
      (Or.inl rfl)).1 (by decide)⟩

/-! ## Idempotence of the link engine -/

/-- Every nonempty prefix of the path extends done and passes MkdirAll's
directory check, so MkdirAll has nothing to create. -/
def allPrefixesDirAux (fs : FS) (done : Path) : List String → Bool
  | [] => true
  | c :: rest =>
    match fsFind fs (done ++ [c]) with
    | none => false
    | some e => isDirLike fs e && allPrefixesDirAux fs (done ++ [c]) rest

/-- All nonempty prefixes of a path are directories in place. -/
def allPrefixesDir (fs : FS) (p : Path) : Bool := allPrefixesDirAux fs [] p

/-- MkdirAll is a no-op over prefixes that are already directories. -/
theorem mkdirAllAux_noop (fs : FS) : ∀ (todo : List String) (done : Path),
    allPrefixesDirAux fs done todo = true →
    mkdirAllAux fs done todo = (fs, [], false) := by
  intro todo
  induction todo with
  | nil => intro done _; rfl
  | cons c rest ih =>
    intro done h
    unfold allPrefixesDirAux at h
    unfold mkdirAllAux
    dsimp only
    cases hf : fsFind fs (done ++ [c]) with
    | none =>
      rw [hf] at h
      exact absurd h (by simp)
    | some e =>
      rw [hf] at h
      simp only [Bool.and_eq_true] at h
      show (if isDirLike fs e = true then mkdirAllAux fs (done ++ [c]) rest
          else (fs, [], true)) = (fs, [], false)
      rw [if_pos h.1]
      exact ih (done ++ [c]) h.2

/-- A walk entry is settled in a state: it is condition-skipped, or its
directory target (for directories) respectively its target's parent
chain plus a symlink to its own source path (for files) are in place. -/
def entryLinked (c : Config) (env : Env) (pkgName : String) (srcRoot : Path)
    (fs : FS) (w : WalkEntry) : Bool :=
  (match (c.GetEffectiveConfig env.rx pkgName w.rel).conditions with
    | some cs => !env.matchesCond cs
    | none => false) ||
  (if w.isDir then
    allPrefixesDir fs (c.GetTargetPath env.rx env.home pkgName w.rel)
  else
    allPrefixesDir fs (dirName (c.GetTargetPath env.rx env.home pkgName w.rel)) &&
    (fsFind fs (c.GetTargetPath env.rx env.home pkgName w.rel) ==
      some (.symlink (srcRoot ++ w.rel))))

/-- A settled entry's link step is exactly the "already linked" or
already-created no-op: state unchanged, no operation, no error. -/
theorem linkStep_noop (c : Config) (env : Env) (pkgName : String)
    (srcRoot : Path) (fs : FS) (w : WalkEntry)
    (h : entryLinked c env pkgName srcRoot fs w = true) :
    linkStep c env pkgName srcRoot fs w = (fs, [], false) := by
  unfold entryLinked at h
  unfold linkStep
  by_cases hc : (match (c.GetEffectiveConfig env.rx pkgName w.rel).conditions with
      | some cs => !env.matchesCond cs
      | none => false) = true
  · rw [if_pos hc]
  · rw [if_neg hc]
    have hcb : (match (c.GetEffectiveConfig env.rx pkgName w.rel).conditions with
        | some cs => !env.matchesCond cs
        | none => false) = false := by
      revert hc
      cases (match (c.GetEffectiveConfig env.rx pkgName w.rel).conditions with
        | some cs => !env.matchesCond cs
        | none => false) <;> simp
    rw [hcb] at h
    simp only [Bool.false_or] at h
    dsimp only
    by_cases hd : w.isDir = true
    · rw [if_pos hd]
      rw [if_pos hd] at h
      by_cases hdry : c.IsDryRun env.rx pkgName w.rel = true
      · rw [if_pos hdry]
      · rw [if_neg hdry]
        exact mkdirAllAux_noop fs _ [] h
    · rw [if_neg hd]
      rw [if_neg hd] at h
      simp only [Bool.and_eq_true, beq_iff_eq] at h
      by_cases hdry : c.IsDryRun env.rx pkgName w.rel = true
      · simp [linkFile, hdry, h.2]
      · have hb : c.IsDryRun env.rx pkgName w.rel = false := by
          revert hdry
          cases c.IsDryRun env.rx pkgName w.rel <;> simp
        simp [linkFile, hb, mkdirAll,
          mkdirAllAux_noop fs
            (dirName (c.GetTargetPath env.rx env.home pkgName w.rel)) [] h.1,
          h.2]

/-- A walk whose every step fixes the given state is a no-op. -/
theorem runWalk_fixed (step : FS → WalkEntry → FS × List Op × Bool)
    (entries : List WalkEntry) (fs : FS)
    (h : ∀ w ∈ entries, step fs w = (fs, [], false)) :
    runWalk step fs entries = (fs, [], false) := by
  induction entries with
  | nil => rfl
  | cons w rest ih =>
    unfold runWalk
    rw [h w (List.mem_cons_self w rest)]
    dsimp only
    rw [ih fun v hv => h v (List.mem_cons_of_mem w hv)]
    rfl

/-- C1 (amended): from any state in which every walked entry is already
settled — in particular after a first run that left every
condition-passing file's target a symlink to its source path — a link
run is a no-op: it leaves the filesystem identical and performs no
create, remove or copy operation, every file taking the "already
linked" branch.  (Unconditional idempotence fails when two entries
resolve to the same target path; see the counterexample.) -/
theorem claim_C1_linkIdempotentOnLinked (c : Config) (env : Env)
    (pkgName : String) (entries : List WalkEntry) (fs : FS)
    (hlinked : ∀ w ∈ entries,
      entryLinked c env pkgName (c.GetSourcePath env.home pkgName) fs w = true) :
    (LinkPackage c env pkgName entries fs).1 = fs ∧
    (LinkPackage c env pkgName entries fs).2.1 = [] := by
  unfold LinkPackage
  by_cases hc : (match (c.GetEffectiveConfig env.rx pkgName []).conditions with
      | some cs => !env.matchesCond cs
      | none => false) = true
  · rw [if_pos hc]
    exact ⟨rfl, rfl⟩
  · rw [if_neg hc]
    dsimp only
    cases hs : fsStat fs (c.GetSourcePath env.home pkgName) with
    | none => exact ⟨rfl, rfl⟩
    | some e =>
      rw [runWalk_fixed _ _ _ fun w hw =>
        linkStep_noop c env pkgName _ fs w (hlinked w hw)]
      exact ⟨rfl, rfl⟩

/-- Witness for C1 (amended): a fully linked one-file tree replays as a
no-op. -/
theorem claim_C1_linkIdempotentOnLinked_witness :
    (∀ w ∈ [(⟨["a"], false⟩ : WalkEntry)],
      entryLinked
        { sourceDir := ["s"], targetDir := ["t"], backupDir := ["b"],
          force := false, verbose := false, dryRun := false, packages := [] }
        { rx := fun _ _ => false, home := ["h"],
          matchesCond := fun _ => true, confirm := fun _ => false }
        "p"
        (({ sourceDir := ["s"], targetDir := ["t"], backupDir := ["b"],
            force := false, verbose := false, dryRun := false,
            packages := [] } : Config).GetSourcePath ["h"] "p")
        [(["s", "p"], Entry.dir), (["s", "p", "a"], Entry.file 1),
         (["t"], Entry.dir), (["t", "a"], Entry.symlink ["s", "p", "a"])]
        w = true) ∧
    ((LinkPackage
        { sourceDir := ["s"], targetDir := ["t"], backupDir := ["b"],
          force := false, verbose := false, dryRun := false, packages := [] }
        { rx := fun _ _ => false, home := ["h"],
          matchesCond := fun _ => true, confirm := fun _ => false }
        "p" [⟨["a"], false⟩]
        [(["s", "p"], Entry.dir), (["s", "p", "a"], Entry.file 1),
         (["t"], Entry.dir), (["t", "a"], Entry.symlink ["s", "p", "a"])]).1 =
      [(["s", "p"], Entry.dir), (["s", "p", "a"], Entry.file 1),
       (["t"], Entry.dir), (["t", "a"], Entry.symlink ["s", "p", "a"])] ∧
    (LinkPackage
        { sourceDir := ["s"], targetDir := ["t"], backupDir := ["b"],
          force := false, verbose := false, dryRun := false, packages := [] }
        { rx := fun _ _ => false, home := ["h"],
          matchesCond := fun _ => true, confirm := fun _ => false }
        "p" [⟨["a"], false⟩]
        [(["s", "p"], Entry.dir), (["s", "p", "a"], Entry.file 1),
         (["t"], Entry.dir), (["t", "a"], Entry.symlink ["s", "p", "a"])]).2.1 =
      []) :=
  ⟨by decide,
    claim_C1_linkIdempotentOnLinked _ _ "p" [⟨["a"], false⟩]
      [(["s", "p"], Entry.dir), (["s", "p", "a"], Entry.file 1),
       (["t"], Entry.dir), (["t", "a"], Entry.symlink ["s", "p", "a"])]
      (by decide)⟩

/-- A file override renaming its target, used to make two files collide
on one target path. -/
def collideFileConfig : FileConfig :=
  { targetDir := [], targetName := "x", backupDir := [], force := none,
    verbose := none, dryRun := false, conditions := none }

/-- A package whose two files both rename to the same target name. -/
def collidePackageConfig : PackageConfig :=
  { sourceDir := [], targetDir := [], backupDir := [], force := none,
    verbose := none, dryRun := false, conditions := none,
    files := [("a", collideFileConfig), ("b", collideFileConfig)] }

/-- A forced configuration with backups enabled and the colliding
package. -/
def collideConfig : Config :=
  { sourceDir := ["s"], targetDir := ["t"], backupDir := ["bk"],
    force := true, verbose := false, dryRun := false,
    packages := [("p", collidePackageConfig)] }

/-- The collaborators for the collision scenario. -/
def collideEnv : Env :=
  { rx := fun _ _ => false, home := ["h"], matchesCond := fun _ => true,
    confirm := fun _ => false }

/-- The walked entries of the colliding package. -/
def collideEntries : List WalkEntry := [⟨["a"], false⟩, ⟨["b"], false⟩]

/-- The initial state: just the source tree. -/
def collideFs : FS :=
  [(["s"], Entry.dir), (["s", "p"], Entry.dir),
   (["s", "p", "a"], Entry.file 1), (["s", "p", "b"], Entry.file 2)]

/-- Counterexample to C1 as stated: with two files renamed onto one
target path, the first link run completes, but the second run differs —
it writes a backup file absent after the first run and performs copy,
remove and symlink operations. -/
theorem claim_C1_counterexample :
    (LinkPackage collideConfig collideEnv "p" collideEntries collideFs).2.2 =
      false ∧
    fsFind (LinkPackage collideConfig collideEnv "p" collideEntries
      collideFs).1 ["bk", "a"] = none ∧
    fsFind (LinkPackage collideConfig collideEnv "p" collideEntries
      (LinkPackage collideConfig collideEnv "p" collideEntries
        collideFs).1).1 ["bk", "a"] = some (.file 2) ∧
    Op.copyOp ["t", "x"] ["bk", "a"] ∈
      (LinkPackage collideConfig collideEnv "p" collideEntries
        (LinkPackage collideConfig collideEnv "p" collideEntries
          collideFs).1).2.1 := by
  refine ⟨by decide, by decide, by decide, by decide⟩

end Dloom









